import Mathlib

/-
Verification of the libkrun bootstrap lifecycle: a shallow embedding of
the guest bootstrap process (src/init/init.c) and of the host launcher
example (src/examples/chroot_vm.c), with theorems about the resource
limit directive parser, the bootstrap step sequence, the exec handoff,
and the host fail-fast configuration protocol.
-/

namespace LibKrun

/-- Value of ULLONG_MAX on the 64-bit targets the code is built for. -/
def ULLONG_MAX : Nat := 2 ^ 64 - 1

/-- The NUL terminator byte of a C string. -/
def NUL : Char := Char.ofNat 0

/-- Reads the byte at offset `i` of a NUL-terminated C string whose
contents (terminator excluded) are `s`: offsets below the length read
the corresponding character, the offset equal to the length reads the
terminator, and any larger offset is a read past the end of the string,
whose result is not defined (`none`). -/
def charAt (s : List Char) (i : Nat) : Option Char :=
  if h : i < s.length then some (s.get ⟨i, h⟩)
  else if i = s.length then some NUL
  else none

/-- C `isspace` in the default locale. -/
def isSpaceC (c : Char) : Bool :=
  c = ' ' || c = Char.ofNat 9 || c = Char.ofNat 10 || c = Char.ofNat 11 ||
    c = Char.ofNat 12 || c = Char.ofNat 13

/-- C `isdigit`. -/
def isDigitC (c : Char) : Bool :=
  '0' ≤ c && c ≤ '9'

/-- Skips the leading whitespace accepted by `strtoull`, returning the
first non-space offset; `Except.error k` records a read past the end of
the string at offset `k`. The fuel argument only bounds recursion and is
always supplied large enough. -/
def skipSpaces (s : List Char) : Nat → Nat → Except Nat Nat
  | 0, i => Except.error i
  | fuel + 1, i =>
    match charAt s i with
    | none => Except.error i
    | some c => if isSpaceC c then skipSpaces s fuel (i + 1) else Except.ok i

/-- Consumes a maximal run of decimal digits starting at offset `i`,
accumulating their value; returns the value, the offset one past the
digits, and how many digits were consumed. -/
def parseDigits (s : List Char) : Nat → Nat → Nat → Nat → Except Nat (Nat × Nat × Nat)
  | 0, i, _, _ => Except.error i
  | fuel + 1, i, acc, cnt =>
    match charAt s i with
    | none => Except.error i
    | some c =>
      if isDigitC c then parseDigits s fuel (i + 1) (acc * 10 + (c.toNat - 48)) (cnt + 1)
      else Except.ok (acc, i, cnt)

/-- Result of a `strtoull` call: the converted value and the offset the
end pointer is left at. -/
structure StrtoullRes where
  val : Nat
  endp : Nat
deriving DecidableEq

/-- C `strtoull(item, &item, 10)` on the string `s` starting at offset
`start`: skips whitespace, accepts an optional sign, converts a maximal
digit run clamping out-of-range values to `ULLONG_MAX`, and leaves the
end pointer after the digits, or at `start` when no conversion could be
performed. -/
def strtoull (s : List Char) (start fuel : Nat) : Except Nat StrtoullRes :=
  match skipSpaces s fuel start with
  | Except.error k => Except.error k
  | Except.ok i =>
    match charAt s i with
    | none => Except.error i
    | some c =>
      match parseDigits s fuel (if c = '-' || c = '+' then i + 1 else i) 0 0 with
      | Except.error k => Except.error k
      | Except.ok (acc, e, cnt) =>
        if cnt = 0 then Except.ok ⟨0, start⟩
        else if ULLONG_MAX < acc then Except.ok ⟨ULLONG_MAX, e⟩
        else if c = '-' then Except.ok ⟨(2 ^ 64 - acc) % 2 ^ 64, e⟩
        else Except.ok ⟨acc, e⟩

/-- Observable events of `set_rlimits`: an attempted `setrlimit` call
with the parsed id, soft and hard values, the error log line printed
when that call fails, and the log line printed on an invalid id. -/
inductive REvent where
  | call (id : Nat) (cur : Nat) (max : Nat)
  | logErr (id : Nat)
  | invalidId
deriving DecidableEq

/-- Outcome of one iteration of the `set_rlimits` loop body. -/
inductive StepRes where
  | stop (evs : List REvent)
  | cont (evs : List REvent) (next : Nat)
  | fault (evs : List REvent) (idx : Nat)
deriving DecidableEq

/-- Events produced by one successfully parsed directive: the
`setrlimit` attempt, followed by the error log line exactly when the
call fails. -/
def callEvs (ro : Nat → Nat → Nat → Bool) (r1 r2 r3 : StrtoullRes) : List REvent :=
  REvent.call r1.val r2.val r3.val ::
    (if ro r1.val r2.val r3.val then [] else [REvent.logErr r1.val])

/-- One iteration of the `while (1)` loop of `set_rlimits` starting with
`item` at offset `i`: read `lim_id` (abort on `ULLONG_MAX`), skip one
byte, read `lim_cur`, skip one byte, read `lim_max`, attempt
`setrlimit`, then continue past a non-NUL separator or stop at the
terminator. `ro` models the success of each `setrlimit` call, and
`fault` records a read past the end of the string. -/
def rstep (ro : Nat → Nat → Nat → Bool) (s : List Char) (i : Nat) : StepRes :=
  match strtoull s i (s.length + 1) with
  | Except.error k => StepRes.fault [] k
  | Except.ok r1 =>
    if r1.val = ULLONG_MAX then StepRes.stop [REvent.invalidId]
    else
      match strtoull s (r1.endp + 1) (s.length + 1) with
      | Except.error k => StepRes.fault [] k
      | Except.ok r2 =>
        match strtoull s (r2.endp + 1) (s.length + 1) with
        | Except.error k => StepRes.fault [] k
        | Except.ok r3 =>
          match charAt s r3.endp with
          | none => StepRes.fault (callEvs ro r1 r2 r3) r3.endp
          | some c =>
            if c = NUL then StepRes.stop (callEvs ro r1 r2 r3)
            else StepRes.cont (callEvs ro r1 r2 r3) (r3.endp + 1)

/-- Result of running `set_rlimits`: a normal return with its event
trace, a read past the end of the input (undefined behaviour) with the
trace up to that point, or fuel exhaustion (a model artifact that never
occurs with the fuel used). -/
inductive RResult where
  | ok (trace : List REvent)
  | oob (trace : List REvent) (idx : Nat)
  | fuelOut (trace : List REvent)
deriving DecidableEq

/-- The `while (1)` loop of `set_rlimits`. -/
def rloop (ro : Nat → Nat → Nat → Bool) (s : List Char) :
    Nat → Nat → List REvent → RResult
  | 0, _, tr => RResult.fuelOut tr
  | fuel + 1, i, tr =>
    match rstep ro s i with
    | StepRes.stop evs => RResult.ok (tr ++ evs)
    | StepRes.fault evs k => RResult.oob (tr ++ evs) k
    | StepRes.cont evs n => rloop ro s fuel n (tr ++ evs)

/-- `set_rlimits(rlimits)` from src/init/init.c, acting on the directive
string `s`, with `ro` modelling which `setrlimit` calls succeed. -/
def set_rlimits (ro : Nat → Nat → Nat → Bool) (s : List Char) : RResult :=
  rloop ro s (s.length + 2) 0 []

/-- Event list of a loop step result. -/
def stepEvs : StepRes → List REvent
  | StepRes.stop evs => evs
  | StepRes.cont evs _ => evs
  | StepRes.fault evs _ => evs

/-- Event trace of a `set_rlimits` run. -/
def traceOf : RResult → List REvent
  | RResult.ok t => t
  | RResult.oob t _ => t
  | RResult.fuelOut t => t

/-- Constructor tag of a `set_rlimits` run (0 normal, 1 out-of-bounds,
2 fuel exhaustion). -/
def resKind : RResult → Nat
  | RResult.ok _ => 0
  | RResult.oob _ _ => 1
  | RResult.fuelOut _ => 2

/-- The sequence of attempted `setrlimit` calls in a trace. -/
def calls (t : List REvent) : List (Nat × Nat × Nat) :=
  t.filterMap fun e =>
    match e with
    | REvent.call a b c => some (a, b, c)
    | _ => none

/-- An oracle under which every `setrlimit` call succeeds. -/
def roAll : Nat → Nat → Nat → Bool := fun _ _ _ => true

/-- An oracle under which exactly the `setrlimit` calls for resource id
6 fail. -/
def roFail6 : Nat → Nat → Nat → Bool := fun id _ _ => decide (id ≠ 6)

/-- Whether an event is the per-directive `setrlimit` failure log
line. -/
def isLogErr : REvent → Bool
  | REvent.logErr _ => true
  | _ => false

/-- A trace with the per-directive failure log lines removed; the
remaining events do not depend on which `setrlimit` calls succeed. -/
def noLogs (t : List REvent) : List REvent :=
  t.filter fun e => !isLogErr e

/-- A `set_rlimits` run with the failure log lines removed from its
trace. -/
def noLogsRes : RResult → RResult
  | RResult.ok t => RResult.ok (noLogs t)
  | RResult.oob t k => RResult.oob (noLogs t) k
  | RResult.fuelOut t => RResult.fuelOut (noLogs t)

/-- A loop step with the failure log lines removed from its events. -/
def stepNoLogs : StepRes → StepRes
  | StepRes.stop evs => StepRes.stop (noLogs evs)
  | StepRes.cont evs n => StepRes.cont (noLogs evs) n
  | StepRes.fault evs k => StepRes.fault (noLogs evs) k

/-- Fixed default init path from src/init/init.c. -/
def DEFAULT_KRUN_INIT : String := "/iwasm"

/-- Outcomes of the syscalls of `main` in src/init/init.c whose return
value the code actually inspects (`mount`, `socket`, each `setrlimit`,
and whether `execv` replaces the process image), together with the
outcomes the code ignores entirely, kept so that theorems can quantify
over failures of every best-effort step. -/
structure InitOracle where
  mountOk : Bool
  symlinkOk : Bool
  sethostnameOk : Bool
  setsidOk : Bool
  ttyIoctlOk : Bool
  socketOk : Bool
  loIoctlOk : Bool
  setrlimitOk : Nat → Nat → Nat → Bool
  chdirOk : Bool
  execOk : Bool

/-- Observable actions of the bootstrap process, in program order. -/
inductive GEvent where
  | perrorMount
  | symlinkFdDir
  | sethostnameCall (name : String)
  | setsidCall
  | ttyIoctl
  | loIfUp
  | rlimitEv (e : REvent)
  | chdirCall (dir : String)
  | execvCall (path : String) (args : List String) (envp : List (String × String))
deriving DecidableEq

/-- Final state of the bootstrap process: a return or `exit` with the
given code, a successful `execv` replacing the image with the given
path, argument vector and (inherited) environment, or undefined
behaviour caused by the rlimit parser reading past its input. -/
inductive GOutcome where
  | exited (code : Int)
  | execed (path : String) (args : List String) (envp : List (String × String))
  | undef (idx : Nat)
deriving DecidableEq

/-- Events of the fixed setup sequence between the proc mount and the
rlimit step: the `/dev/fd` symlink attempt, the `sethostname` call when
`HOSTNAME` is set, `setsid`, the controlling-tty ioctl, and the
loopback interface-up ioctl performed only when the throwaway socket
could be opened. -/
def prefixEvents (o : InitOracle) (env : List (String × String)) : List GEvent :=
  GEvent.symlinkFdDir ::
    ((match List.lookup "HOSTNAME" env with
      | some h => [GEvent.sethostnameCall h]
      | none => []) ++
     (GEvent.setsidCall :: GEvent.ttyIoctl ::
      (if o.socketOk then [GEvent.loIfUp] else [])))

/-- Path handed to `execv`: `KRUN_INIT` when present, the fixed default
otherwise. -/
def execvPath (env : List (String × String)) : String :=
  (List.lookup "KRUN_INIT" env).getD DEFAULT_KRUN_INIT

/-- Argument vector handed to `execv`: the original one with element 0
overwritten with the resolved path. -/
def execvArgs (env : List (String × String)) (argv : List String) : List String :=
  argv.set 0 (execvPath env)

/-- Events of the tail of `main`: the `chdir` call when `KRUN_WORKDIR`
is set, followed by the `execv` call, which passes the current process
environment. -/
def tailEvents (env : List (String × String)) (argv : List String) : List GEvent :=
  (match List.lookup "KRUN_WORKDIR" env with
   | some d => [GEvent.chdirCall d]
   | none => []) ++
  [GEvent.execvCall (execvPath env) (execvArgs env argv) env]

/-- Final state of `main` after the `execv` call: the process is
replaced on success, and falls through to `return 0` when `execv`
returns. -/
def execOutcome (o : InitOracle) (env : List (String × String)) (argv : List String) :
    GOutcome :=
  if o.execOk then GOutcome.execed (execvPath env) (execvArgs env argv) env
  else GOutcome.exited 0

/-- The `main` function of src/init/init.c: fatal proc mount, then the
best-effort setup sequence, `set_rlimits` when `KRUN_RLIMITS` is set,
`chdir` when `KRUN_WORKDIR` is set, init path resolution and `execv`.
An out-of-bounds read inside `set_rlimits` is undefined behaviour and
ends the run. -/
def initMain (o : InitOracle) (env : List (String × String)) (argv : List String) :
    List GEvent × GOutcome :=
  if o.mountOk then
    match List.lookup "KRUN_RLIMITS" env with
    | some r =>
      match set_rlimits o.setrlimitOk (String.data r) with
      | RResult.ok t =>
          (prefixEvents o env ++ t.map GEvent.rlimitEv ++ tailEvents env argv,
           execOutcome o env argv)
      | RResult.oob t k =>
          (prefixEvents o env ++ t.map GEvent.rlimitEv, GOutcome.undef k)
      | RResult.fuelOut t =>
          (prefixEvents o env ++ t.map GEvent.rlimitEv, GOutcome.undef 0)
    | none => (prefixEvents o env ++ tailEvents env argv, execOutcome o env argv)
  else ([GEvent.perrorMount], GOutcome.exited (-1))

/-- Whether the rlimit step of a run is well defined: either
`KRUN_RLIMITS` is absent or `set_rlimits` returns normally on its
value. -/
def rlimitsWellParsed (ro : Nat → Nat → Nat → Bool) (env : List (String × String)) :
    Bool :=
  match List.lookup "KRUN_RLIMITS" env with
  | none => true
  | some r => resKind (set_rlimits ro (String.data r)) == 0

/-- Oracle for a run in which everything up to `execv` works but the
resolved init binary cannot be executed. -/
def execFailOracle : InitOracle :=
  ⟨true, true, true, true, true, true, true, roAll, true, false⟩

/-- Oracle for a bootstrap run in which every syscall succeeds. -/
def allOkOracle : InitOracle :=
  ⟨true, true, true, true, true, true, true, roAll, true, true⟩

/-- Oracle for a bootstrap run in which the proc mount fails. -/
def mountFailOracle : InitOracle :=
  ⟨false, true, true, true, true, true, true, roAll, true, true⟩

/-- Outcomes of the fallible operations of `main` in
src/examples/chroot_vm.c: the return value of each `krun_*` call,
whether `getcwd` and `malloc` succeed, and the return value of
`krun_start_enter` when it does return. -/
structure HostOracle where
  setLogLevelErr : Int
  createCtxRet : Int
  setVmConfigErr : Int
  setRootErr : Int
  getcwdOk : Bool
  mallocOk : Bool
  setMappedVolumesErr : Int
  setPortMapErr : Int
  setRlimitsErr : Int
  setWorkdirErr : Int
  setExecErr : Int
  startEnterErr : Int

/-- Observable actions of the host launcher, in program order. -/
inductive HEvent where
  | usage
  | setLogLevelCall
  | createCtxCall
  | setVmConfigCall
  | setRootCall
  | getcwdCall
  | mallocCall
  | snprintfCall
  | setMappedVolumesCall
  | setPortMapCall
  | setRlimitsCall
  | setWorkdirCall
  | setExecCall
  | startEnterCall
  | perrorMsg (msg : String)
deriving DecidableEq

/-- Final state of the host launcher: a return with the given code,
entry into the microVM (`krun_start_enter` not returning), or undefined
behaviour (the `snprintf` into the buffer whose allocation failed). -/
inductive HOutcome where
  | ret (code : Int)
  | entered
  | undefBehavior
deriving DecidableEq

/-- The active `main` of src/examples/chroot_vm.c: the ordered
configuration protocol, where every checked failure prints a diagnostic
and returns -1, except the volume-string allocation failure, which
prints a diagnostic and then falls through to `snprintf` on the null
buffer. -/
def chrootMain (o : HostOracle) (argc : Nat) : List HEvent × HOutcome :=
  if argc < 3 then ([HEvent.usage], HOutcome.ret (-1)) else
  let e1 := [HEvent.setLogLevelCall]
  if o.setLogLevelErr ≠ 0 then
    (e1 ++ [HEvent.perrorMsg "Error configuring log level"], HOutcome.ret (-1)) else
  let e2 := e1 ++ [HEvent.createCtxCall]
  if o.createCtxRet < 0 then
    (e2 ++ [HEvent.perrorMsg "Error creating configuration context"], HOutcome.ret (-1)) else
  let e3 := e2 ++ [HEvent.setVmConfigCall]
  if o.setVmConfigErr ≠ 0 then
    (e3 ++ [HEvent.perrorMsg "Error configuring the number of vCPUs and/or the amount of RAM"],
     HOutcome.ret (-1)) else
  let e4 := e3 ++ [HEvent.setRootCall]
  if o.setRootErr ≠ 0 then
    (e4 ++ [HEvent.perrorMsg "Error configuring root path"], HOutcome.ret (-1)) else
  let e5 := e4 ++ [HEvent.getcwdCall]
  if o.getcwdOk = false then
    (e5 ++ [HEvent.perrorMsg "Error getting current directory"], HOutcome.ret (-1)) else
  let e6 := e5 ++ [HEvent.mallocCall]
  if o.mallocOk = false then
    (e6 ++ [HEvent.perrorMsg "Error allocating memory for volume string", HEvent.snprintfCall],
     HOutcome.undefBehavior) else
  let e7 := e6 ++ [HEvent.snprintfCall, HEvent.setMappedVolumesCall]
  if o.setMappedVolumesErr ≠ 0 then
    (e7 ++ [HEvent.perrorMsg "Error configuring mapped volumes"], HOutcome.ret (-1)) else
  let e8 := e7 ++ [HEvent.setPortMapCall]
  if o.setPortMapErr ≠ 0 then
    (e8 ++ [HEvent.perrorMsg "Error configuring port map"], HOutcome.ret (-1)) else
  let e9 := e8 ++ [HEvent.setRlimitsCall]
  if o.setRlimitsErr ≠ 0 then
    (e9 ++ [HEvent.perrorMsg "Error configuring rlimits"], HOutcome.ret (-1)) else
  let e10 := e9 ++ [HEvent.setWorkdirCall]
  if o.setWorkdirErr ≠ 0 then
    (e10 ++ [HEvent.perrorMsg "Error configuring \"/\" as working directory"],
     HOutcome.ret (-1)) else
  let e11 := e10 ++ [HEvent.setExecCall]
  if o.setExecErr ≠ 0 then
    (e11 ++ [HEvent.perrorMsg "Error configuring the parameters for the executable to be run"],
     HOutcome.ret (-1)) else
  let e12 := e11 ++ [HEvent.startEnterCall]
  if o.startEnterErr ≠ 0 then
    (e12 ++ [HEvent.perrorMsg "Error creating the microVM"], HOutcome.ret (-1))
  else (e12, HOutcome.entered)

/-- Oracle for a host run in which only the volume-string allocation
fails. -/
def mallocFailOracle : HostOracle :=
  ⟨0, 1, 0, 0, true, false, 0, 0, 0, 0, 0, 0⟩

/-- Pointer progress of the whitespace skip: the end offset is at or
after the start offset. -/
theorem skipSpaces_le (s : List Char) :
    ∀ fuel i j, skipSpaces s fuel i = Except.ok j → i ≤ j := by
  intro fuel
  induction fuel with
  | zero => intro i j h; simp [skipSpaces] at h
  | succ n ih =>
    intro i j h
    unfold skipSpaces at h
    split at h
    · simp at h
    · split at h
      · have := ih (i + 1) j h
        omega
      · injection h with h
        omega

/-- Pointer progress of the digit run: the end offset is at or after
the start offset. -/
theorem parseDigits_le (s : List Char) :
    ∀ fuel i acc cnt v e n,
      parseDigits s fuel i acc cnt = Except.ok (v, e, n) → i ≤ e := by
  intro fuel
  induction fuel with
  | zero => intro i acc cnt v e n h; simp [parseDigits] at h
  | succ m ih =>
    intro i acc cnt v e n h
    unfold parseDigits at h
    split at h
    · simp at h
    · split at h
      · have := ih (i + 1) _ _ v e n h
        omega
      · simp only [Except.ok.injEq, Prod.mk.injEq] at h
        omega

/-- Pointer progress of `strtoull`: the end pointer never moves before
the start pointer. -/
theorem strtoull_le (s : List Char) (start fuel : Nat) (r : StrtoullRes)
    (h : strtoull s start fuel = Except.ok r) : start ≤ r.endp := by
  unfold strtoull at h
  split at h
  · simp at h
  · rename_i i hskip
    have hi : start ≤ i := skipSpaces_le s fuel start i hskip
    split at h
    · simp at h
    · rename_i c hc
      split at h
      · simp at h
      · rename_i acc e cnt hpd
        have hj : (if c = '-' || c = '+' then i + 1 else i) ≤ e :=
          parseDigits_le s fuel _ 0 0 acc e cnt hpd
        have hie : i ≤ e := by split at hj <;> omega
        split at h
        · injection h with h; subst h; exact Nat.le_refl start
        · split at h
          · injection h with h; subst h; exact Nat.le_trans hi hie
          · split at h
            · injection h with h; subst h; exact Nat.le_trans hi hie
            · injection h with h; subst h; exact Nat.le_trans hi hie

/-- Strict left-to-right consumption: whenever a loop iteration
continues, it continues strictly to the right of where it started. -/
theorem rstep_cont_lt (ro : Nat → Nat → Nat → Bool) (s : List Char) (i : Nat)
    (evs : List REvent) (n : Nat) (h : rstep ro s i = StepRes.cont evs n) : i < n := by
  unfold rstep at h
  split at h
  · simp at h
  · rename_i r1 h1
    split at h
    · simp at h
    · split at h
      · simp at h
      · rename_i r2 h2
        split at h
        · simp at h
        · rename_i r3 h3
          split at h
          · simp at h
          · split at h
            · simp at h
            · injection h with he hn
              have a1 := strtoull_le s i (s.length + 1) r1 h1
              have a2 := strtoull_le s (r1.endp + 1) (s.length + 1) r2 h2
              have a3 := strtoull_le s (r2.endp + 1) (s.length + 1) r3 h3
              omega

/-- The invalid-id log line never comes from a parsed directive. -/
theorem invalidId_not_mem_callEvs (ro : Nat → Nat → Nat → Bool)
    (r1 r2 r3 : StrtoullRes) : REvent.invalidId ∉ callEvs ro r1 r2 r3 := by
  by_cases hro : ro r1.val r2.val r3.val = true <;> simp [callEvs, hro]

/-- Scrubbing the failure log lines from a parsed directive leaves
exactly the `setrlimit` attempt. -/
theorem noLogs_callEvs (ro : Nat → Nat → Nat → Bool) (r1 r2 r3 : StrtoullRes) :
    noLogs (callEvs ro r1 r2 r3) = [REvent.call r1.val r2.val r3.val] := by
  by_cases hro : ro r1.val r2.val r3.val = true <;>
    simp [callEvs, noLogs, isLogErr, hro]

/-- A failing `setrlimit` call is followed by its log line. -/
theorem logErr_mem_callEvs (ro : Nat → Nat → Nat → Bool) (r1 r2 r3 : StrtoullRes)
    (h : ro r1.val r2.val r3.val = false) :
    REvent.logErr r1.val ∈ callEvs ro r1 r2 r3 := by
  simp [callEvs, h]

/-- The only `setrlimit` attempt in a parsed directive is the one with
the three parsed values. -/
theorem call_mem_callEvs (ro : Nat → Nat → Nat → Bool) (r1 r2 r3 : StrtoullRes)
    (a b c : Nat) (h : REvent.call a b c ∈ callEvs ro r1 r2 r3) :
    a = r1.val ∧ b = r2.val ∧ c = r3.val := by
  unfold callEvs at h
  by_cases hro : ro r1.val r2.val r3.val = true <;> simp [hro] at h <;> tauto

/-- A failing `setrlimit` attempt inside a parsed directive has its log
line in the same event list. -/
theorem logErr_of_call_mem (ro : Nat → Nat → Nat → Bool) (r1 r2 r3 : StrtoullRes)
    (a b c : Nat) (hmem : REvent.call a b c ∈ callEvs ro r1 r2 r3)
    (hro : ro a b c = false) : REvent.logErr a ∈ callEvs ro r1 r2 r3 := by
  obtain ⟨ha, hb, hc⟩ := call_mem_callEvs ro r1 r2 r3 a b c hmem
  subst ha; subst hb; subst hc
  exact logErr_mem_callEvs ro r1 r2 r3 hro

/-- If a loop iteration emits the invalid-id log line, the iteration is
an abort and the id field parsed to exactly `ULLONG_MAX`. -/
theorem rstep_invalidId (ro : Nat → Nat → Nat → Bool) (s : List Char) (i : Nat)
    (res : StepRes) (hres : rstep ro s i = res)
    (h : REvent.invalidId ∈ stepEvs res) :
    res = StepRes.stop [REvent.invalidId] ∧
      ∃ r, strtoull s i (s.length + 1) = Except.ok r ∧ r.val = ULLONG_MAX := by
  unfold rstep at hres
  split at hres
  · subst hres; simp [stepEvs] at h
  · rename_i r1 h1
    split at hres
    · rename_i hval
      subst hres
      exact ⟨rfl, r1, h1, hval⟩
    · split at hres
      · subst hres; simp [stepEvs] at h
      · rename_i r2 h2
        split at hres
        · subst hres; simp [stepEvs] at h
        · rename_i r3 h3
          split at hres
          · subst hres
            exact absurd h (invalidId_not_mem_callEvs ro r1 r2 r3)
          · rename_i c hc
            split at hres <;> subst hres <;>
              exact absurd h (invalidId_not_mem_callEvs ro r1 r2 r3)

/-- If a loop iteration emits a `setrlimit` attempt whose call fails,
the matching log line is emitted in the same iteration. -/
theorem rstep_logErr_of_fail (ro : Nat → Nat → Nat → Bool) (s : List Char) (i : Nat)
    (res : StepRes) (hres : rstep ro s i = res) (a b c : Nat)
    (hmem : REvent.call a b c ∈ stepEvs res) (hro : ro a b c = false) :
    REvent.logErr a ∈ stepEvs res := by
  unfold rstep at hres
  split at hres
  · subst hres; simp [stepEvs] at hmem
  · rename_i r1 h1
    split at hres
    · subst hres; simp [stepEvs] at hmem
    · split at hres
      · subst hres; simp [stepEvs] at hmem
      · rename_i r2 h2
        split at hres
        · subst hres; simp [stepEvs] at hmem
        · rename_i r3 h3
          split at hres
          · subst hres
            exact logErr_of_call_mem ro r1 r2 r3 a b c hmem hro
          · rename_i c2 hc2
            split at hres <;> subst hres <;>
              exact logErr_of_call_mem ro r1 r2 r3 a b c hmem hro

/-- Once the invalid-id log line is emitted, it ends the whole trace:
nothing is parsed or applied after it, and the events before it are
kept. -/
theorem rloop_invalid_last (ro : Nat → Nat → Nat → Bool) (s : List Char) :
    ∀ fuel i tr, REvent.invalidId ∉ tr →
      REvent.invalidId ∉ traceOf (rloop ro s fuel i tr) ∨
        ∃ t', traceOf (rloop ro s fuel i tr) = t' ++ [REvent.invalidId] ∧
          REvent.invalidId ∉ t' := by
  intro fuel
  induction fuel with
  | zero => intro i tr htr; exact Or.inl (by simpa [rloop, traceOf] using htr)
  | succ m ih =>
    intro i tr htr
    cases hstep : rstep ro s i with
    | stop evs =>
      by_cases hmem : REvent.invalidId ∈ evs
      · obtain ⟨hres, -⟩ :=
          rstep_invalidId ro s i _ hstep (by simpa [stepEvs] using hmem)
        injection hres with hevs
        subst hevs
        right
        exact ⟨tr, by simp [rloop, hstep, traceOf], htr⟩
      · left
        simp [rloop, hstep, traceOf, List.mem_append]
        tauto
    | cont evs n =>
      have hmem : REvent.invalidId ∉ evs := by
        intro hc
        obtain ⟨hres, -⟩ :=
          rstep_invalidId ro s i _ hstep (by simpa [stepEvs] using hc)
        simp at hres
      have htr2 : REvent.invalidId ∉ tr ++ evs := by
        simp [List.mem_append]
        tauto
      have := ih n (tr ++ evs) htr2
      simpa [rloop, hstep] using this
    | fault evs k =>
      have hmem : REvent.invalidId ∉ evs := by
        intro hc
        obtain ⟨hres, -⟩ :=
          rstep_invalidId ro s i _ hstep (by simpa [stepEvs] using hc)
        simp at hres
      left
      simp [rloop, hstep, traceOf, List.mem_append]
      tauto

/-- Which `setrlimit` calls succeed has no influence on a loop
iteration beyond its failure log lines: parsing, the attempted call and
the control flow are identical under any two oracles. -/
theorem rstep_noLogs_congr (ro1 ro2 : Nat → Nat → Nat → Bool) (s : List Char)
    (i : Nat) : stepNoLogs (rstep ro1 s i) = stepNoLogs (rstep ro2 s i) := by
  unfold rstep
  repeat' split
  all_goals first
  | rfl
  | simp [stepNoLogs, noLogs_callEvs]

/-- Lift of `rstep_noLogs_congr` to the whole loop. -/
theorem rloop_noLogs_congr (ro1 ro2 : Nat → Nat → Nat → Bool) (s : List Char) :
    ∀ fuel i tr1 tr2, noLogs tr1 = noLogs tr2 →
      noLogsRes (rloop ro1 s fuel i tr1) = noLogsRes (rloop ro2 s fuel i tr2) := by
  intro fuel
  induction fuel with
  | zero => intro i tr1 tr2 h; simp [rloop, noLogsRes, h]
  | succ m ih =>
    intro i tr1 tr2 h
    have hstep := rstep_noLogs_congr ro1 ro2 s i
    cases h1 : rstep ro1 s i with
    | stop evs1 =>
      cases h2 : rstep ro2 s i with
      | stop evs2 =>
        rw [h1, h2] at hstep
        simp only [stepNoLogs, StepRes.stop.injEq] at hstep
        simp only [rloop, h1, h2, noLogsRes, RResult.ok.injEq]
        simp only [noLogs, List.filter_append] at h hstep ⊢
        rw [h, hstep]
      | cont evs2 n2 => rw [h1, h2] at hstep; simp [stepNoLogs] at hstep
      | fault evs2 k2 => rw [h1, h2] at hstep; simp [stepNoLogs] at hstep
    | cont evs1 n1 =>
      cases h2 : rstep ro2 s i with
      | stop evs2 => rw [h1, h2] at hstep; simp [stepNoLogs] at hstep
      | cont evs2 n2 =>
        rw [h1, h2] at hstep
        simp only [stepNoLogs, StepRes.cont.injEq] at hstep
        obtain ⟨hevs, hn⟩ := hstep
        subst hn
        simp only [rloop, h1, h2]
        refine ih n1 (tr1 ++ evs1) (tr2 ++ evs2) ?_
        simp only [noLogs, List.filter_append] at hevs h ⊢
        rw [h, hevs]
      | fault evs2 k2 => rw [h1, h2] at hstep; simp [stepNoLogs] at hstep
    | fault evs1 k1 =>
      cases h2 : rstep ro2 s i with
      | stop evs2 => rw [h1, h2] at hstep; simp [stepNoLogs] at hstep
      | cont evs2 n2 => rw [h1, h2] at hstep; simp [stepNoLogs] at hstep
      | fault evs2 k2 =>
        rw [h1, h2] at hstep
        simp only [stepNoLogs, StepRes.fault.injEq] at hstep
        obtain ⟨hevs, hk⟩ := hstep
        subst hk
        simp only [rloop, h1, h2, noLogsRes, RResult.oob.injEq]
        refine ⟨?_, by trivial⟩
        simp only [noLogs, List.filter_append] at hevs h ⊢
        rw [h, hevs]

/-- Which `setrlimit` calls succeed has no influence on a `set_rlimits`
run beyond its failure log lines. -/
theorem set_rlimits_noLogs_congr (ro1 ro2 : Nat → Nat → Nat → Bool)
    (s : List Char) : noLogsRes (set_rlimits ro1 s) = noLogsRes (set_rlimits ro2 s) :=
  rloop_noLogs_congr ro1 ro2 s (s.length + 2) 0 [] [] rfl

/-- The failure log lines do not contribute `setrlimit` attempts. -/
theorem calls_noLogs (t : List REvent) : calls (noLogs t) = calls t := by
  induction t with
  | nil => rfl
  | cons e t ih =>
    cases e <;> simpa [calls, noLogs, isLogErr, List.filterMap_cons] using ih

/-- Scrubbing commutes with taking the trace. -/
theorem traceOf_noLogsRes (r : RResult) : traceOf (noLogsRes r) = noLogs (traceOf r) := by
  cases r <;> rfl

/-- Scrubbing preserves how a run ended. -/
theorem resKind_noLogsRes (r : RResult) : resKind (noLogsRes r) = resKind r := by
  cases r <;> rfl

/-- The attempted `setrlimit` calls of a run, and whether the run ends
normally, reads out of bounds or exhausts fuel, are the same under any
two `setrlimit` success oracles. -/
theorem set_rlimits_calls_congr (ro1 ro2 : Nat → Nat → Nat → Bool) (s : List Char) :
    calls (traceOf (set_rlimits ro1 s)) = calls (traceOf (set_rlimits ro2 s)) ∧
      resKind (set_rlimits ro1 s) = resKind (set_rlimits ro2 s) := by
  have h := set_rlimits_noLogs_congr ro1 ro2 s
  constructor
  · have h2 := congrArg (fun r => calls (traceOf r)) h
    simpa [traceOf_noLogsRes, calls_noLogs] using h2
  · have h2 := congrArg resKind h
    simpa [resKind_noLogsRes] using h2

/-- Under default-locale `strtoull` rules, a leading character that is
not a digit, not whitespace and not a sign produces no conversion: the
value is 0 and the end pointer stays at the start. -/
theorem strtoull_nonnumeric (s : List Char) (i : Nat) (c : Char)
    (hc : charAt s i = some c) (hsp : isSpaceC c = false) (hd : isDigitC c = false)
    (hplus : c ≠ '+') (hminus : c ≠ '-') :
    strtoull s i (s.length + 1) = Except.ok ⟨0, i⟩ := by
  have hskip : skipSpaces s (s.length + 1) i = Except.ok i := by
    unfold skipSpaces
    rw [hc]
    simp [hsp]
  have hpd : parseDigits s (s.length + 1) i 0 0 = Except.ok (0, i, 0) := by
    unfold parseDigits
    rw [hc]
    simp [hd]
  unfold strtoull
  simp only [hskip]
  simp [hc, hplus, hminus, hpd]

/-- A failed proc mount makes the bootstrap process print its
diagnostic and exit -1 without doing anything else. -/
theorem initMain_mount_fail (o : InitOracle) (env : List (String × String))
    (argv : List String) (hm : o.mountOk = false) :
    initMain o env argv = ([GEvent.perrorMount], GOutcome.exited (-1)) := by
  unfold initMain
  rw [hm]
  rfl

/-- When the proc mount succeeds and the rlimit step is well defined,
the bootstrap process always reaches its `execv` call. -/
theorem initMain_exec_reached (o : InitOracle) (env : List (String × String))
    (argv : List String) (hm : o.mountOk = true)
    (hr : rlimitsWellParsed o.setrlimitOk env = true) :
    GEvent.execvCall (execvPath env) (execvArgs env argv) env ∈ (initMain o env argv).1 ∧
      (initMain o env argv).2 = execOutcome o env argv := by
  unfold initMain
  rw [if_pos hm]
  unfold rlimitsWellParsed at hr
  split
  · rename_i r hl
    simp only [hl] at hr
    split
    · exact ⟨by simp [tailEvents], rfl⟩
    · rename_i t k hres
      rw [hres] at hr
      simp [resKind] at hr
    · rename_i t hres
      rw [hres] at hr
      simp [resKind] at hr
  · exact ⟨by simp [tailEvents], rfl⟩

/-- Every bootstrap trace is either the mount-failure diagnostic alone,
or the fixed setup prefix followed by the rlimit events and, when the
rlimit step did not fault, the tail through `execv`; moreover there are
no rlimit events when `KRUN_RLIMITS` is absent. -/
theorem initMain_trace_shape (o : InitOracle) (env : List (String × String))
    (argv : List String) :
    (initMain o env argv).1 = [GEvent.perrorMount] ∨
      ∃ t : List REvent,
        ((initMain o env argv).1 =
            prefixEvents o env ++ t.map GEvent.rlimitEv ++ tailEvents env argv ∨
          (initMain o env argv).1 = prefixEvents o env ++ t.map GEvent.rlimitEv) ∧
          (List.lookup "KRUN_RLIMITS" env = none → t = []) := by
  unfold initMain
  by_cases hm : o.mountOk = true
  · rw [if_pos hm]
    split
    · rename_i r hl
      split
      · rename_i t hres
        exact Or.inr ⟨t, Or.inl rfl, by simp [hl]⟩
      · rename_i t k hres
        exact Or.inr ⟨t, Or.inr rfl, by simp [hl]⟩
      · rename_i t hres
        exact Or.inr ⟨t, Or.inr rfl, by simp [hl]⟩
    · exact Or.inr ⟨[], Or.inl (by simp), fun _ => rfl⟩
  · rw [if_neg hm]
    exact Or.inl rfl

/-- Without `HOSTNAME` there is no `sethostname` call in the setup
prefix. -/
theorem sethostname_not_mem_prefix (o : InitOracle) (env : List (String × String))
    (hH : List.lookup "HOSTNAME" env = none) (h : String) :
    GEvent.sethostnameCall h ∉ prefixEvents o env := by
  by_cases hs : o.socketOk = true <;> simp [prefixEvents, hH, hs]

/-- The tail of the bootstrap never calls `sethostname`. -/
theorem sethostname_not_mem_tail (env : List (String × String)) (argv : List String)
    (h : String) : GEvent.sethostnameCall h ∉ tailEvents env argv := by
  cases hw : List.lookup "KRUN_WORKDIR" env <;> simp [tailEvents, hw]

/-- The setup prefix never calls `chdir`. -/
theorem chdir_not_mem_prefix (o : InitOracle) (env : List (String × String))
    (d : String) : GEvent.chdirCall d ∉ prefixEvents o env := by
  cases hH : List.lookup "HOSTNAME" env <;>
    by_cases hs : o.socketOk = true <;> simp [prefixEvents, hH, hs]

/-- Without `KRUN_WORKDIR` there is no `chdir` call in the tail. -/
theorem chdir_not_mem_tail (env : List (String × String)) (argv : List String)
    (hw : List.lookup "KRUN_WORKDIR" env = none) (d : String) :
    GEvent.chdirCall d ∉ tailEvents env argv := by
  simp [tailEvents, hw]

/-- The setup prefix contains no rlimit event. -/
theorem rlimitEv_not_mem_prefix (o : InitOracle) (env : List (String × String))
    (e : REvent) : GEvent.rlimitEv e ∉ prefixEvents o env := by
  cases hH : List.lookup "HOSTNAME" env <;>
    by_cases hs : o.socketOk = true <;> simp [prefixEvents, hH, hs]

/-- The tail contains no rlimit event. -/
theorem rlimitEv_not_mem_tail (env : List (String × String)) (argv : List String)
    (e : REvent) : GEvent.rlimitEv e ∉ tailEvents env argv := by
  cases hw : List.lookup "KRUN_WORKDIR" env <;> simp [tailEvents, hw]

/-- An event that is not an rlimit event is not among the mapped rlimit
events. -/
theorem not_mem_rlimitEv_map (t : List REvent) (g : GEvent)
    (hg : ∀ e : REvent, g ≠ GEvent.rlimitEv e) : g ∉ t.map GEvent.rlimitEv := by
  intro hmem
  obtain ⟨e, -, heq⟩ := List.mem_map.mp hmem
  exact hg e heq.symm

/-- C1: when the terminal `execv` of the bootstrap process returns
instead of replacing the image (resolved path `/nonexistent` with the
proc mount succeeding), the code does not exit non-zero: `main` falls
through to `return 0`, so the process silently exits 0, contrary to the
required behaviour. -/
theorem C1_exec_return_falls_through_to_exit_zero :
    (initMain execFailOracle [("KRUN_INIT", "/nonexistent")] ["/init", "a"]).2 =
        GOutcome.exited 0 ∧
      GEvent.execvCall "/nonexistent" ["/nonexistent", "a"]
          [("KRUN_INIT", "/nonexistent")] ∈
        (initMain execFailOracle [("KRUN_INIT", "/nonexistent")] ["/init", "a"]).1 := by
  decide

/-- C2: rlimit directive parsing is strictly left-to-right with no
backtracking (every continuing loop iteration moves the cursor strictly
right), and a malformed id, which is one parsing to `ULLONG_MAX`, ends
the entire remaining parse: the invalid-id log line can only be the
final trace event, with everything applied before it preserved and
nothing applied at or after it. -/
theorem C2_left_to_right_invalid_id_fail_fast :
    (∀ (ro : Nat → Nat → Nat → Bool) (s : List Char) (i : Nat)
        (evs : List REvent) (n : Nat),
        rstep ro s i = StepRes.cont evs n → i < n) ∧
      ∀ (ro : Nat → Nat → Nat → Bool) (s : List Char),
        REvent.invalidId ∈ traceOf (set_rlimits ro s) →
          ∃ t', traceOf (set_rlimits ro s) = t' ++ [REvent.invalidId] ∧
            REvent.invalidId ∉ t' := by
  constructor
  · exact fun ro s i evs n h => rstep_cont_lt ro s i evs n h
  · intro ro s hmem
    have h := rloop_invalid_last ro s (s.length + 2) 0 [] (by simp)
    exact h.resolve_left (fun hn => hn hmem)

/-- Witness for C2: one concrete continuing iteration, and one concrete
string whose second directive has id `ULLONG_MAX`. -/
theorem C2_witness :
    (0 : Nat) < 6 ∧
      ∃ t', traceOf (set_rlimits roAll (String.data "6=1:2;18446744073709551615=3:4")) =
          t' ++ [REvent.invalidId] ∧ REvent.invalidId ∉ t' := by
  constructor
  · exact C2_left_to_right_invalid_id_fail_fast.1 roAll
      (String.data "6=1:2;7=3:4") 0 [REvent.call 6 1 2] 6 (by decide)
  · exact C2_left_to_right_invalid_id_fail_fast.2 roAll
      (String.data "6=1:2;18446744073709551615=3:4") (by decide)

/-- C3: on the directive string "6=4096", with the hard-limit field
missing, `set_rlimits` increments the cursor past the NUL terminator at
offset 6 and reads out of bounds at offset 7 before any `setrlimit`
call, contrary to the required no-overread, no-crash behaviour. -/
theorem C3_missing_field_reads_past_end :
    set_rlimits roAll (String.data "6=4096") = RResult.oob [] 7 ∧
      (String.data "6=4096").length = 6 := by
  decide

/-- C4: well-formed directive strings parse to exactly the expected
directives, in order, each applied through one `setrlimit` attempt,
under any oracle for the outcomes of the `setrlimit` calls. -/
theorem C4_wellformed_directives (ro : Nat → Nat → Nat → Bool) :
    calls (traceOf (set_rlimits ro (String.data "6=4096:8192"))) = [(6, 4096, 8192)] ∧
      resKind (set_rlimits ro (String.data "6=4096:8192")) = 0 ∧
      calls (traceOf (set_rlimits ro (String.data "6=4096:8192;7=10:20"))) =
        [(6, 4096, 8192), (7, 10, 20)] ∧
      resKind (set_rlimits ro (String.data "6=4096:8192;7=10:20")) = 0 := by
  obtain ⟨hc1, hk1⟩ := set_rlimits_calls_congr ro roAll (String.data "6=4096:8192")
  obtain ⟨hc2, hk2⟩ := set_rlimits_calls_congr ro roAll (String.data "6=4096:8192;7=10:20")
  refine ⟨?_, ?_, ?_, ?_⟩
  · rw [hc1]; decide
  · rw [hk1]; decide
  · rw [hc2]; decide
  · rw [hk2]; decide

/-- Witness for C4 under an oracle that fails the id 6 call. -/
theorem C4_witness :
    calls (traceOf (set_rlimits roFail6 (String.data "6=4096:8192"))) =
      [(6, 4096, 8192)] :=
  (C4_wellformed_directives roFail6).1

/-- C5: a failing `setrlimit` call never changes what is parsed,
attempted or faulted afterwards (the run differs from the all-success
run only by log lines), each failing attempt is logged within its own
iteration, and concretely a failure on directive 1 still reaches and
attempts directive 2. -/
theorem C5_apply_failure_logged_not_fatal :
    (∀ (ro1 ro2 : Nat → Nat → Nat → Bool) (s : List Char),
        noLogsRes (set_rlimits ro1 s) = noLogsRes (set_rlimits ro2 s)) ∧
      (∀ (ro : Nat → Nat → Nat → Bool) (s : List Char) (i : Nat) (res : StepRes)
          (a b c : Nat), rstep ro s i = res →
          REvent.call a b c ∈ stepEvs res → ro a b c = false →
          REvent.logErr a ∈ stepEvs res) ∧
      set_rlimits roFail6 (String.data "6=1:2;7=3:4") =
        RResult.ok [REvent.call 6 1 2, REvent.logErr 6, REvent.call 7 3 4] := by
  refine ⟨set_rlimits_noLogs_congr, ?_, by decide⟩
  intro ro s i res a b c hres hmem hro
  exact rstep_logErr_of_fail ro s i res hres a b c hmem hro

/-- Witness for C5 at the concrete two-directive string. -/
theorem C5_witness :
    noLogsRes (set_rlimits roFail6 (String.data "6=1:2;7=3:4")) =
        noLogsRes (set_rlimits roAll (String.data "6=1:2;7=3:4")) ∧
      REvent.logErr 6 ∈ stepEvs (rstep roFail6 (String.data "6=1:2;7=3:4") 0) := by
  constructor
  · exact C5_apply_failure_logged_not_fatal.1 roFail6 roAll (String.data "6=1:2;7=3:4")
  · exact C5_apply_failure_logged_not_fatal.2.1 roFail6 (String.data "6=1:2;7=3:4") 0
      (rstep roFail6 (String.data "6=1:2;7=3:4") 0) 6 1 2 rfl (by decide) (by decide)

/-- C6: only the proc mount is fatal: if it fails the bootstrap prints
its diagnostic and exits -1 with nothing else run, and once it succeeds
the process reaches the `execv` call whatever the outcome of every
later setup step, provided the rlimit step is well defined (the
separate overread bug of C3 aside). -/
theorem C6_only_proc_mount_fatal (o : InitOracle) (env : List (String × String))
    (argv : List String) :
    (o.mountOk = false →
        initMain o env argv = ([GEvent.perrorMount], GOutcome.exited (-1))) ∧
      (o.mountOk = true → rlimitsWellParsed o.setrlimitOk env = true →
        GEvent.execvCall (execvPath env) (execvArgs env argv) env ∈
          (initMain o env argv).1) := by
  constructor
  · exact initMain_mount_fail o env argv
  · intro hm hr
    exact (initMain_exec_reached o env argv hm hr).1

/-- Witness for C6: a concrete failed-mount run and a concrete
successful-mount run. -/
theorem C6_witness :
    initMain mountFailOracle [] ["/init"] =
        ([GEvent.perrorMount], GOutcome.exited (-1)) ∧
      GEvent.execvCall (execvPath []) (execvArgs [] ["/init"]) [] ∈
        (initMain allOkOracle [] ["/init"]).1 := by
  constructor
  · exact (C6_only_proc_mount_fatal mountFailOracle [] ["/init"]).1 rfl
  · exact (C6_only_proc_mount_fatal allOkOracle [] ["/init"]).2 rfl (by decide)

/-- C7: on a host launch in which the volume-string allocation fails
(all earlier steps succeeding), the launcher prints the allocation
diagnostic but does not return -1: it falls through into the
`snprintf` on the null buffer, which is undefined behaviour, so the
fail-fast contract is violated at this step. -/
theorem C7_malloc_failure_not_fail_fast :
    chrootMain mallocFailOracle 3 =
        ([HEvent.setLogLevelCall, HEvent.createCtxCall, HEvent.setVmConfigCall,
          HEvent.setRootCall, HEvent.getcwdCall, HEvent.mallocCall,
          HEvent.perrorMsg "Error allocating memory for volume string",
          HEvent.snprintfCall], HOutcome.undefBehavior) ∧
      (chrootMain mallocFailOracle 3).2 ≠ HOutcome.ret (-1) := by
  decide

/-- C8: the bootstrap resolves the program to exec as `KRUN_INIT` when
present and `/iwasm` otherwise, and calls `execv` with the original
argument vector whose first element is overwritten with the resolved
path, passing the current process environment itself. -/
theorem C8_exec_resolution_and_handoff (o : InitOracle) (env : List (String × String))
    (argv : List String) (hm : o.mountOk = true)
    (hr : rlimitsWellParsed o.setrlimitOk env = true) :
    execvPath env = (List.lookup "KRUN_INIT" env).getD DEFAULT_KRUN_INIT ∧
      DEFAULT_KRUN_INIT = "/iwasm" ∧
      execvArgs env argv = argv.set 0 (execvPath env) ∧
      GEvent.execvCall (execvPath env) (execvArgs env argv) env ∈
        (initMain o env argv).1 ∧
      (o.execOk = true →
        (initMain o env argv).2 =
          GOutcome.execed (execvPath env) (execvArgs env argv) env) := by
  obtain ⟨h1, h2⟩ := initMain_exec_reached o env argv hm hr
  refine ⟨rfl, rfl, rfl, h1, ?_⟩
  intro hex
  rw [h2]
  unfold execOutcome
  rw [if_pos hex]

/-- Witness for C8: override present and override absent. -/
theorem C8_witness :
    execvPath [("KRUN_INIT", "/custom")] = "/custom" ∧
      execvPath [] = "/iwasm" ∧
      (initMain allOkOracle [("KRUN_INIT", "/custom")] ["/init", "b"]).2 =
        GOutcome.execed "/custom" ["/custom", "b"] [("KRUN_INIT", "/custom")] := by
  refine ⟨by decide, by decide, ?_⟩
  have h := (C8_exec_resolution_and_handoff allOkOracle [("KRUN_INIT", "/custom")]
      ["/init", "b"] rfl (by decide)).2.2.2.2 rfl
  rw [h]
  decide

/-- C9: a missing `HOSTNAME`, `KRUN_RLIMITS` or `KRUN_WORKDIR` skips
the corresponding step with no trace of it, a missing `KRUN_INIT`
selects the fixed default init path, and each absence is handled with
no assumption on the other variables. -/
theorem C9_missing_env_vars_independent (o : InitOracle) (env : List (String × String))
    (argv : List String) :
    (List.lookup "HOSTNAME" env = none →
        ∀ h : String, GEvent.sethostnameCall h ∉ (initMain o env argv).1) ∧
      (List.lookup "KRUN_RLIMITS" env = none →
        ∀ e : REvent, GEvent.rlimitEv e ∉ (initMain o env argv).1) ∧
      (List.lookup "KRUN_WORKDIR" env = none →
        ∀ d : String, GEvent.chdirCall d ∉ (initMain o env argv).1) ∧
      (List.lookup "KRUN_INIT" env = none → o.mountOk = true →
        rlimitsWellParsed o.setrlimitOk env = true →
        GEvent.execvCall DEFAULT_KRUN_INIT (argv.set 0 DEFAULT_KRUN_INIT) env ∈
          (initMain o env argv).1) := by
  have hshape := initMain_trace_shape o env argv
  refine ⟨?_, ?_, ?_, ?_⟩
  · intro hH h
    rcases hshape with h1 | ⟨t, h2 | h2, -⟩
    · rw [h1]; simp
    · rw [h2]
      intro hmem
      rcases List.mem_append.mp hmem with hmem | hmem
      · rcases List.mem_append.mp hmem with hmem | hmem
        · exact sethostname_not_mem_prefix o env hH h hmem
        · exact not_mem_rlimitEv_map t _ (fun e => by simp) hmem
      · exact sethostname_not_mem_tail env argv h hmem
    · rw [h2]
      intro hmem
      rcases List.mem_append.mp hmem with hmem | hmem
      · exact sethostname_not_mem_prefix o env hH h hmem
      · exact not_mem_rlimitEv_map t _ (fun e => by simp) hmem
  · intro hR e
    rcases hshape with h1 | ⟨t, h2 | h2, ht⟩
    · rw [h1]; simp
    · rw [h2, ht hR]
      intro hmem
      rcases List.mem_append.mp hmem with hmem | hmem
      · rcases List.mem_append.mp hmem with hmem | hmem
        · exact rlimitEv_not_mem_prefix o env e hmem
        · simp at hmem
      · exact rlimitEv_not_mem_tail env argv e hmem
    · rw [h2, ht hR]
      intro hmem
      rcases List.mem_append.mp hmem with hmem | hmem
      · exact rlimitEv_not_mem_prefix o env e hmem
      · simp at hmem
  · intro hW d
    rcases hshape with h1 | ⟨t, h2 | h2, -⟩
    · rw [h1]; simp
    · rw [h2]
      intro hmem
      rcases List.mem_append.mp hmem with hmem | hmem
      · rcases List.mem_append.mp hmem with hmem | hmem
        · exact chdir_not_mem_prefix o env d hmem
        · exact not_mem_rlimitEv_map t _ (fun e => by simp) hmem
      · exact chdir_not_mem_tail env argv hW d hmem
    · rw [h2]
      intro hmem
      rcases List.mem_append.mp hmem with hmem | hmem
      · exact chdir_not_mem_prefix o env d hmem
      · exact not_mem_rlimitEv_map t _ (fun e => by simp) hmem
  · intro hI hm hr
    have h := (initMain_exec_reached o env argv hm hr).1
    simpa [execvPath, execvArgs, hI] using h

/-- Witness for C9 with the empty environment. -/
theorem C9_witness :
    GEvent.sethostnameCall "x" ∉ (initMain allOkOracle [] ["/init"]).1 ∧
      GEvent.rlimitEv REvent.invalidId ∉ (initMain allOkOracle [] ["/init"]).1 ∧
      GEvent.chdirCall "/w" ∉ (initMain allOkOracle [] ["/init"]).1 ∧
      GEvent.execvCall DEFAULT_KRUN_INIT (["/init"].set 0 DEFAULT_KRUN_INIT) [] ∈
        (initMain allOkOracle [] ["/init"]).1 := by
  obtain ⟨h1, h2, h3, h4⟩ := C9_missing_env_vars_independent allOkOracle [] ["/init"]
  exact ⟨h1 rfl "x", h2 rfl REvent.invalidId, h3 rfl "/w", h4 rfl rfl (by decide)⟩

/-- C10: the only id-field condition that aborts the rlimit parse loop
is the parsed value being exactly `ULLONG_MAX`; a leading character
that is not a digit, whitespace or sign makes `strtoull` return 0
without consuming anything; and concretely on "x=1:2" the loop is not
aborted and `setrlimit` is attempted with resource id 0. -/
theorem C10_nonnumeric_id_not_fatal :
    (∀ (ro : Nat → Nat → Nat → Bool) (s : List Char) (i : Nat) (res : StepRes),
        rstep ro s i = res → REvent.invalidId ∈ stepEvs res →
          ∃ r, strtoull s i (s.length + 1) = Except.ok r ∧ r.val = ULLONG_MAX) ∧
      (∀ (s : List Char) (i : Nat) (c : Char),
        charAt s i = some c → isSpaceC c = false → isDigitC c = false →
          c ≠ '+' → c ≠ '-' →
          strtoull s i (s.length + 1) = Except.ok ⟨0, i⟩) ∧
      set_rlimits roAll (String.data "x=1:2") = RResult.oob [REvent.call 0 0 1] 6 := by
  refine ⟨?_, strtoull_nonnumeric, by decide⟩
  intro ro s i res hres hmem
  exact (rstep_invalidId ro s i res hres hmem).2

/-- Witness for C10: a 20-digit id that is exactly `ULLONG_MAX`, and
the non-numeric leading character of "x". -/
theorem C10_witness :
    (∃ r, strtoull (String.data "18446744073709551615") 0
          ((String.data "18446744073709551615").length + 1) = Except.ok r ∧
        r.val = ULLONG_MAX) ∧
      strtoull (String.data "x") 0 ((String.data "x").length + 1) =
        Except.ok ⟨0, 0⟩ := by
  constructor
  · exact C10_nonnumeric_id_not_fatal.1 roAll (String.data "18446744073709551615") 0
      (rstep roAll (String.data "18446744073709551615") 0) rfl (by decide)
  · exact C10_nonnumeric_id_not_fatal.2.1 (String.data "x") 0 'x' (by decide)
      (by decide) (by decide) (by decide) (by decide)

end LibKrun
